import Mathlib

/-!
Verification of the WhatsApp multimodal bot orchestration code
(`src/lambdas/...`) against its natural-language specification.

The Python sources are shallowly embedded: dict-shaped dynamic values become
the inductive `PyVal`; operations that can raise (attribute access on a
non-dict, JSON decode errors, ...) return `Except Unit`; external calls
(Bedrock, S3, Lambda invokes) are passed in as oracle arguments describing
their outcome.  All definitions are executable.
-/

set_option maxRecDepth 10000

/-- Model of the Python/JSON values the lambdas manipulate.  Floats are kept
as their source text (`floatLit`) because no claim depends on float
arithmetic; every other shape is represented exactly. -/
inductive PyVal where
  | none : PyVal
  | bool (b : Bool) : PyVal
  | str (s : String) : PyVal
  | int (n : Int) : PyVal
  | floatLit (raw : String) : PyVal
  | list (xs : List PyVal) : PyVal
  | dict (kvs : List (String × PyVal)) : PyVal
deriving Repr

/-- Python truthiness (`bool(v)`): None, False, "", 0, empty list/dict are
falsy; a float literal other than "0"-like text is treated as truthy (the
claims never exercise float truthiness). -/
def pyTruthy : PyVal → Bool
  | .none => false
  | .bool b => b
  | .str s => !s.isEmpty
  | .int n => n != 0
  | .floatLit _ => true
  | .list xs => !xs.isEmpty
  | .dict kvs => !kvs.isEmpty

/-- Python `a or b` specialised to dynamic values. -/
def pyOrV (a b : PyVal) : PyVal := if pyTruthy a then a else b

/-- Python dict lookup with default: `kvs.get(k, d)`. -/
def dictGet (kvs : List (String × PyVal)) (k : String) (d : PyVal) : PyVal :=
  match kvs.find? (fun p => p.1 == k) with
  | some p => p.2
  | Option.none => d

/-- Python dict assignment `kvs[k] = v`: overrides an existing key (keeping
its position) or appends a new one. -/
def dictInsert (kvs : List (String × PyVal)) (k : String) (v : PyVal) :
    List (String × PyVal) :=
  if kvs.any (fun p => p.1 == k) then
    kvs.map (fun p => if p.1 == k then (k, v) else p)
  else kvs ++ [(k, v)]

/-- Python attribute-style `.get(k, d)`: raises (AttributeError) when the
receiver is not a dict. -/
def pyAttrGet (v : PyVal) (k : String) (d : PyVal) : Except Unit PyVal :=
  match v with
  | .dict kvs => .ok (dictGet kvs k d)
  | _ => .error ()

/-- Python `v[0]`: first element of a list, first character of a string,
raises otherwise (IndexError / KeyError / TypeError). -/
def pyIndex0 (v : PyVal) : Except Unit PyVal :=
  match v with
  | .list (x :: _) => .ok x
  | .list [] => .error ()
  | .str s =>
    match s.toList with
    | c :: _ => .ok (.str (String.mk [c]))
    | [] => .error ()
  | _ => .error ()

/-- Python iteration `for x in v`: lists yield elements, strings yield
1-character strings, dicts yield their keys; other values raise. -/
def pyIterList (v : PyVal) : Except Unit (List PyVal) :=
  match v with
  | .list xs => .ok xs
  | .str s => .ok (s.toList.map (fun c => PyVal.str (String.mk [c])))
  | .dict kvs => .ok (kvs.map (fun p => PyVal.str p.1))
  | _ => .error ()

/-- Whitespace for Python `str.strip()`. -/
def pyWsChar (c : Char) : Bool :=
  c = ' ' || c = '\t' || c = '\n' || c = '\r' || c = '\x0b' || c = '\x0c'

/-- Embedding of Python `s.strip()`: drop whitespace from both ends. -/
def pyStrip (s : String) : String :=
  String.mk (((s.toList.dropWhile pyWsChar).reverse.dropWhile pyWsChar).reverse)

/-- Embedding of Python slicing `s[:n]` (by characters, i.e. code points). -/
def pySlice (s : String) (n : Nat) : String :=
  String.mk (s.toList.take n)

/-- Python `v is True`: identity with the True singleton, i.e. exactly the
boolean true (ints and other truthy values do not qualify). -/
def isPyTrue : PyVal → Bool
  | .bool true => true
  | _ => false

/-! Embedding of `json.loads` (the JSON grammar accepted by the Python
standard library decoder): objects, arrays, double-quoted strings with
escapes, numbers, true/false/null and the Python extensions
NaN, Infinity and negative Infinity.  Duplicate object keys follow dict semantics
(last value wins).  Recursion is fuelled; the fuel passed by `json_loads`
is always sufficient for terminating inputs. -/

def jsonWs (c : Char) : Bool := c = ' ' || c = '\t' || c = '\n' || c = '\r'

def skipWs : List Char → List Char
  | [] => []
  | c :: cs => if jsonWs c then skipWs cs else c :: cs

def hexVal (c : Char) : Option Nat :=
  if '0' ≤ c ∧ c ≤ '9' then some (c.toNat - 48)
  else if 'a' ≤ c ∧ c ≤ 'f' then some (c.toNat - 87)
  else if 'A' ≤ c ∧ c ≤ 'F' then some (c.toNat - 55)
  else Option.none

def hex4 (a b c d : Char) : Option Nat := do
  let va ← hexVal a
  let vb ← hexVal b
  let vc ← hexVal c
  let vd ← hexVal d
  pure (((va * 16 + vb) * 16 + vc) * 16 + vd)

/-- Parse the body of a JSON string (after the opening quote) up to the
closing quote.  Unescaped control characters are rejected, as in Python. -/
def parseStringBody : List Char → Option (List Char × List Char)
  | [] => Option.none
  | '"' :: rest => some ([], rest)
  | '\\' :: '"' :: r => (parseStringBody r).map (fun p => ('"' :: p.1, p.2))
  | '\\' :: '\\' :: r => (parseStringBody r).map (fun p => ('\\' :: p.1, p.2))
  | '\\' :: '/' :: r => (parseStringBody r).map (fun p => ('/' :: p.1, p.2))
  | '\\' :: 'b' :: r => (parseStringBody r).map (fun p => (Char.ofNat 8 :: p.1, p.2))
  | '\\' :: 'f' :: r => (parseStringBody r).map (fun p => (Char.ofNat 12 :: p.1, p.2))
  | '\\' :: 'n' :: r => (parseStringBody r).map (fun p => ('\n' :: p.1, p.2))
  | '\\' :: 'r' :: r => (parseStringBody r).map (fun p => ('\r' :: p.1, p.2))
  | '\\' :: 't' :: r => (parseStringBody r).map (fun p => ('\t' :: p.1, p.2))
  | '\\' :: 'u' :: a :: b :: c :: d :: r =>
    match hex4 a b c d with
    | some n => (parseStringBody r).map (fun p => (Char.ofNat n :: p.1, p.2))
    | Option.none => Option.none
  | '\\' :: _ => Option.none
  | c :: rest =>
    if c.toNat < 32 then Option.none
    else (parseStringBody rest).map (fun p => (c :: p.1, p.2))

def digitsToNat (ds : List Char) : Nat :=
  ds.foldl (fun n c => n * 10 + (c.toNat - 48)) 0

/-- Integer part of a JSON number: a single 0, or a nonzero digit followed
by digits (leading zeros are rejected, as in Python). -/
def parseIntPart : List Char → Option (List Char × List Char)
  | '0' :: rest => some (['0'], rest)
  | c :: rest =>
    if c.isDigit then
      some (c :: rest.takeWhile Char.isDigit, rest.dropWhile Char.isDigit)
    else Option.none
  | [] => Option.none

def parseFracPart : List Char → Option (List Char × List Char)
  | '.' :: r =>
    let ds := r.takeWhile Char.isDigit
    if ds.isEmpty then Option.none
    else some ('.' :: ds, r.dropWhile Char.isDigit)
  | l => some ([], l)

def parseExpPart : List Char → Option (List Char × List Char)
  | 'e' :: r => parseExpTail 'e' r
  | 'E' :: r => parseExpTail 'E' r
  | l => some ([], l)
where
  parseExpTail (e : Char) : List Char → Option (List Char × List Char)
  | '+' :: r => parseExpDigits e ['+'] r
  | '-' :: r => parseExpDigits e ['-'] r
  | r => parseExpDigits e [] r
  parseExpDigits (e : Char) (sign : List Char) (r : List Char) :
      Option (List Char × List Char) :=
    let ds := r.takeWhile Char.isDigit
    if ds.isEmpty then Option.none
    else some (e :: sign ++ ds, r.dropWhile Char.isDigit)

/-- Parse a JSON number (after an optional leading minus handled by the
caller): integers become `PyVal.int`, anything with a fraction or exponent
becomes `PyVal.floatLit` carrying the consumed text. -/
def parseNumber (neg : Bool) (cs : List Char) : Option (PyVal × List Char) :=
  match parseIntPart cs with
  | Option.none => Option.none
  | some (ip, r1) =>
    match parseFracPart r1 with
    | Option.none => Option.none
    | some (fp, r2) =>
      match parseExpPart r2 with
      | Option.none => Option.none
      | some (ep, r3) =>
        if fp.isEmpty ∧ ep.isEmpty then
          let n : Int := Int.ofNat (digitsToNat ip)
          some (.int (if neg then -n else n), r3)
        else
          let signTxt : List Char := if neg then ['-'] else []
          some (.floatLit (String.mk (signTxt ++ ip ++ fp ++ ep)), r3)

mutual

def parseV : Nat → List Char → Option (PyVal × List Char)
  | 0, _ => Option.none
  | f + 1, cs =>
    match skipWs cs with
    | 't' :: 'r' :: 'u' :: 'e' :: r => some (.bool true, r)
    | 'f' :: 'a' :: 'l' :: 's' :: 'e' :: r => some (.bool false, r)
    | 'n' :: 'u' :: 'l' :: 'l' :: r => some (.none, r)
    | 'N' :: 'a' :: 'N' :: r => some (.floatLit "NaN", r)
    | 'I' :: 'n' :: 'f' :: 'i' :: 'n' :: 'i' :: 't' :: 'y' :: r =>
      some (.floatLit "Infinity", r)
    | '-' :: 'I' :: 'n' :: 'f' :: 'i' :: 'n' :: 'i' :: 't' :: 'y' :: r =>
      some (.floatLit "-Infinity", r)
    | '"' :: r => (parseStringBody r).map (fun p => (.str (String.mk p.1), p.2))
    | '[' :: r => parseArr f (skipWs r)
    | '\x7b' :: r => parseObj f (skipWs r)
    | '-' :: r => parseNumber true r
    | c :: r =>
      if c.isDigit then parseNumber false (c :: r) else Option.none
    | [] => Option.none

def parseArr : Nat → List Char → Option (PyVal × List Char)
  | 0, _ => Option.none
  | f + 1, cs =>
    match cs with
    | ']' :: r => some (.list [], r)
    | _ =>
      match parseV f cs with
      | some (v, r1) => parseArrRest f [v] (skipWs r1)
      | Option.none => Option.none

def parseArrRest : Nat → List PyVal → List Char → Option (PyVal × List Char)
  | 0, _, _ => Option.none
  | f + 1, acc, cs =>
    match cs with
    | ']' :: r => some (.list acc.reverse, r)
    | ',' :: r =>
      match parseV f r with
      | some (v, r1) => parseArrRest f (v :: acc) (skipWs r1)
      | Option.none => Option.none
    | _ => Option.none

def parseMember : Nat → List Char → Option ((String × PyVal) × List Char)
  | 0, _ => Option.none
  | f + 1, cs =>
    match skipWs cs with
    | '"' :: r =>
      match parseStringBody r with
      | some (kl, r1) =>
        match skipWs r1 with
        | ':' :: r2 =>
          match parseV f r2 with
          | some (v, r3) => some ((String.mk kl, v), skipWs r3)
          | Option.none => Option.none
        | _ => Option.none
      | Option.none => Option.none
    | _ => Option.none

def parseObj : Nat → List Char → Option (PyVal × List Char)
  | 0, _ => Option.none
  | f + 1, cs =>
    match cs with
    | '\x7d' :: r => some (.dict [], r)
    | _ =>
      match parseMember f cs with
      | some (kv, r1) => parseObjRest f (dictInsert [] kv.1 kv.2) r1
      | Option.none => Option.none

def parseObjRest : Nat → List (String × PyVal) → List Char →
    Option (PyVal × List Char)
  | 0, _, _ => Option.none
  | f + 1, acc, cs =>
    match cs with
    | '\x7d' :: r => some (.dict acc, r)
    | ',' :: r =>
      match parseMember f r with
      | some (kv, r1) => parseObjRest f (dictInsert acc kv.1 kv.2) r1
      | Option.none => Option.none
    | _ => Option.none

end

/-- Embedding of `json.loads`: parse one JSON document, requiring only
trailing whitespace after it; any failure is the JSONDecodeError path. -/
def json_loads (s : String) : Except Unit PyVal :=
  match parseV (2 * s.length + 8) s.toList with
  | some (v, rest) => if skipWs rest = [] then .ok v else .error ()
  | Option.none => .error ()

example : json_loads "\x7b\"voice\": true\x7d" =
    .ok (.dict [("voice", .bool true)]) := rfl
example : json_loads "not json" = .error () := rfl
example : json_loads "true" = .ok (.bool true) := rfl
example : json_loads "[1, 2]" = .ok (.list [.int 1, .int 2]) := rfl

namespace WaProcess

/-! Embedding of `src/lambdas/wa-process/lambda_function.py`. -/

/-! Voice-intent classifier (`_classify_voice_intent`).  The Bedrock
`converse` call is an oracle: `Except.error ()` models a timeout,
ClientError or any other raised exception; `Except.ok resp` models the
response object, a Python value. -/

/-- Extraction of the raw classifier text, mirroring the source lines
that read `resp["output"]["message"]["content"][0]["text"]` defensively:
any attribute access on a non-dict raises, and the result must be a
string (otherwise `.strip()` raises). -/
def extractRawText (resp : PyVal) : Except Unit String :=
  match pyAttrGet resp "output" (.dict []) with
  | .error e => .error e
  | .ok out =>
    match pyAttrGet out "message" .none with
    | .error e => .error e
    | .ok m1 =>
      let msgE : Except Unit PyVal :=
        if pyTruthy m1 then .ok m1
        else
          match pyAttrGet out "messages" .none with
          | .error e => .error e
          | .ok m2 => pyIndex0 (if pyTruthy m2 then m2 else .list [.dict []])
      match msgE with
      | .error e => .error e
      | .ok msg =>
        match pyAttrGet msg "content" (.list []) with
        | .error e => .error e
        | .ok content =>
          match pyIterList content with
          | .error e => .error e
          | .ok items =>
            let chunks := items.filterMap (fun c =>
              match c with
              | .dict kvs =>
                let t := dictGet kvs "text" .none
                if pyTruthy t then some t else Option.none
              | _ => Option.none)
            match chunks.headD (.str "") with
            | .str s => .ok (pyStrip s)
            | _ => .error ()

/-- Parsed object of the classifier output: `json.loads(raw) if raw else
\x7b\x7d` (an empty raw text yields an empty dict without parsing). -/
def voiceObj (raw : String) : Except Unit PyVal :=
  if raw.isEmpty then .ok (.dict []) else json_loads raw

/-- Final test of the classifier: `bool(obj.get("voice") is True)`; a
non-dict object raises. -/
def voiceOfObj (obj : PyVal) : Except Unit Bool :=
  match pyAttrGet obj "voice" .none with
  | .error e => .error e
  | .ok v => .ok (isPyTrue v)

/-- Body of the classifier after the `converse` call succeeded: parse the
raw text as JSON (empty text gives an empty dict) and test whether the
key "voice" holds exactly the boolean True. -/
def classifyBody (resp : PyVal) : Except Unit Bool :=
  match extractRawText resp with
  | .error e => .error e
  | .ok raw =>
    match voiceObj raw with
    | .error e => .error e
    | .ok obj => voiceOfObj obj

/-- Embedding of `_classify_voice_intent`: empty (stripped) user text
answers False without calling the model; any exception inside the try
block (modelled by the error cases) answers False. -/
def classify_voice_intent (userText : String)
    (converseOutcome : Except Unit PyVal) : Bool :=
  if (pyStrip userText).isEmpty then false
  else
    match converseOutcome with
    | .error _ => false
    | .ok resp =>
      match classifyBody resp with
      | .ok b => b
      | .error _ => false

/-! Streaming response assembly (`_invoke_agent`). -/

/-- Value of the `bytes` field of a chunk event: raw bytes are represented
by their UTF-8 decode (errors ignored), strings are kept, any other
truthy value contributes its `str()` rendering. -/
inductive ChunkBytes where
  | bytesVal (decoded : String) : ChunkBytes
  | strVal (s : String) : ChunkBytes
  | otherVal (truthy : Bool) (rendered : String) : ChunkBytes
deriving Repr, DecidableEq

/-- Diagnostic fields the source copies out of a trace event. -/
structure TraceInfo where
  ttype : Option String := Option.none
  eventType : Option String := Option.none
  toolName : Option String := Option.none
  toolInvocation : Option String := Option.none
  observationPreview : Option String := Option.none
deriving Repr, DecidableEq

/-- One event of the Bedrock agent completion stream, as discriminated by
the source: a dict with a "chunk" key (whose optional `bytes` field is
modelled by `Option ChunkBytes`), a "trace" key, a "guardrail" key, or
anything else. -/
inductive AgentEvent where
  | chunk (b : Option ChunkBytes) : AgentEvent
  | trace (t : TraceInfo) : AgentEvent
  | guardrail : AgentEvent
  | other : AgentEvent
deriving Repr, DecidableEq

/-- Text piece a chunk event contributes before the emptiness check:
`none` when the `bytes` field is absent or falsy. -/
def chunkPiece : Option ChunkBytes → Option String
  | Option.none => Option.none
  | some (.bytesVal s) => some s
  | some (.strVal s) => some s
  | some (.otherVal truthy rendered) =>
    if truthy then some rendered else Option.none

/-- Result of one `_invoke_agent` call: the joined final text, the number
of nonempty chunks, the retained trace summaries, and how many of them
were logged (`LOG_TRACE_MAX` bounds only the logging). -/
structure GenerationResult where
  text : String
  chunk_count : Nat
  trace_events : List TraceInfo
  logged_traces : Nat
deriving Repr, DecidableEq

def LOG_TRACE_MAX : Nat := 10

/-- Event loop of `_invoke_agent`, carrying the accumulators
(text parts, chunk count, trace summaries, logged-trace count). -/
def agentLoop : List AgentEvent → List String → Nat → List TraceInfo → Nat →
    GenerationResult
  | [], parts, cnt, traces, logged =>
    { text := pyStrip (String.join parts)
      chunk_count := cnt
      trace_events := traces
      logged_traces := logged }
  | ev :: rest, parts, cnt, traces, logged =>
    match ev with
    | .chunk b =>
      match chunkPiece b with
      | some piece =>
        if piece.isEmpty then agentLoop rest parts cnt traces logged
        else agentLoop rest (parts ++ [piece]) (cnt + 1) traces logged
      | Option.none => agentLoop rest parts cnt traces logged
    | .trace t =>
      let traces' := traces ++ [t]
      let logged' := if traces'.length ≤ LOG_TRACE_MAX then logged + 1 else logged
      agentLoop rest parts cnt traces' logged'
    | .guardrail => agentLoop rest parts cnt traces logged
    | .other => agentLoop rest parts cnt traces logged

/-- Embedding of `_invoke_agent` after a successful `invoke_agent` call:
consume the completion stream and assemble the `GenerationResult`.  A
missing completion stream is modelled by the empty event list (both give
the empty result, as in the source). -/
def invoke_agent (events : List AgentEvent) : GenerationResult :=
  agentLoop events [] 0 [] 0

end WaProcess

example : (WaProcess.invoke_agent
    [WaProcess.AgentEvent.chunk (some (.bytesVal "Hola ")),
     WaProcess.AgentEvent.guardrail,
     WaProcess.AgentEvent.chunk (some (.strVal "mundo"))]).text
    = "Hola mundo" := rfl
example : WaProcess.classify_voice_intent "send audio"
    (.ok (.dict [("output", .dict [("message", .dict [("content",
      .list [.dict [("text", .str "\x7b\"voice\": true\x7d")]])])])])) = true := rfl
example : WaProcess.classify_voice_intent "send audio" (.error ()) = false := rfl
example : WaProcess.classify_voice_intent "send audio"
    (.ok (.dict [("output", .dict [("message", .dict [("content",
      .list [.dict [("text", .str "gibberish")]])])])])) = false := rfl

namespace WaProcess

/-! Normalized inbound payload, as produced by `inbound-webhook` and read
by `wa-process` (`event["message"]`, with the fields the handler touches). -/

/-- The `media` info dict attached by the webhook when the message carried
media; `mtype` embeds its "type" key. -/
structure MediaRef where
  mtype : String
  mime : Option String := Option.none
  s3_bucket : Option String := Option.none
  s3_key : Option String := Option.none
deriving Repr, DecidableEq

/-- The `interactive` payload: `button_reply_title` embeds the composite
lookup `(interactive.get("button_reply") or ...).get("title")`, and likewise
for list replies; absent or None titles are `none`. -/
structure InteractiveRef where
  button_reply_title : Option String := Option.none
  list_reply_title : Option String := Option.none
deriving Repr, DecidableEq

/-- The normalized `message` object; `from_id` embeds the "from" key and
`mtype` the "type" key (the event kind). -/
structure Message where
  id : Option String := Option.none
  mtype : Option String := Option.none
  from_id : Option String := Option.none
  text : Option String := Option.none
  interactive : Option InteractiveRef := Option.none
  media : Option MediaRef := Option.none
deriving Repr, DecidableEq

/-- One normalized inbound event handed to the `wa-process` handler. -/
structure InboundEvent where
  message : Message
deriving Repr, DecidableEq

/-- Python `a or b` on strings (empty is falsy). -/
def pyOrS (a b : String) : String := if a.isEmpty then b else a

/-- Embedding of `_read_text_from_event`: the stripped text body, else the
stripped interactive reply title, else the neutral greeting "Hola". -/
def _read_text_from_event (e : InboundEvent) : String :=
  let msg := e.message
  let text := pyStrip (pyOrS (msg.text.getD "") "")
  let text :=
    if text.isEmpty then
      match msg.interactive with
      | some it =>
        pyStrip (pyOrS (it.button_reply_title.getD "")
          (pyOrS (it.list_reply_title.getD "") ""))
      | Option.none => text
    else text
  pyOrS text "Hola"

/-- Fixed apology substituted for a failed or empty agent reply. -/
def APOLOGY : String := "Lo siento, no pude generar una respuesta."

/-- Sentinel reply meaning the agent already delivered the answer
out-of-band (an image push). -/
def SENTINEL : String := "✅"

/-- Deployment configuration of the `wa-process` lambda: whether the
transcription dispatch target is configured, and the media bucket name
(the module refuses to load when it is empty). -/
structure Config where
  transcribeConfigured : Bool
  mediaBucket : String
deriving Repr, DecidableEq

/-- Return sites of the `wa-process` handler, in source order. -/
inductive ExitPoint where
  | noTranscribeFn
  | dispatchedTranscription
  | noFrom
  | audioSent
  | alreadyDelivered
  | textSent
deriving Repr, DecidableEq

/-- Observable outcome of one `wa-process` invocation: the HTTP-shaped
return value plus the side effects performed (transcription dispatch,
agent invocation, TTS invocation, outbound sends). -/
structure HandlerResult where
  statusCode : Nat
  exit : ExitPoint
  transcribeDispatched : Bool
  agentCalled : Bool
  ttsCalled : Bool
  sentText : Option (String × String) := Option.none
  sentAudio : Option (String × String) := Option.none
deriving Repr, DecidableEq

/-- Embedding of `_send_whatsapp_text`: the payload handed to `wa-send`
caps the text at 4096 characters. -/
def _send_whatsapp_text (recipient text : String) : String × String :=
  (recipient, pySlice text 4096)

/-- Delimited context block appended to the user text for image events
(built with the pre-injection user text as the question). -/
def imageContext (s3Uri userText : String) : String :=
  "\n\n[IMAGE_CONTEXT]\ns3Uri: " ++ s3Uri ++ "\nquestion: " ++ userText ++
    "\n[/IMAGE_CONTEXT]"

/-- Agent reply as computed by handler step 3: empty on a raised agent
call, otherwise the assembled stream text. -/
def agentReply (agentOutcome : Except Unit (List AgentEvent)) : String :=
  match agentOutcome with
  | .error _ => ""
  | .ok evs => (invoke_agent evs).text

/-- The reply after the fallback of handler step 3: the apology replaces a
failed or empty agent reply. -/
def finalReply (agentOutcome : Except Unit (List AgentEvent)) : String :=
  pyOrS (agentReply agentOutcome) APOLOGY

/-- Condition of the audio branch: the event carries media whose type is
audio (`media and media.get("type") == "audio"`). -/
def isAudioMedia (e : InboundEvent) : Bool :=
  match e.message.media with
  | some m => m.mtype = "audio"
  | Option.none => false

/-- User text after steps 1 and 2 of the handler: extracted text, with the
image context block appended for image media when the bucket and key are
available. -/
def effectiveUserText (cfg : Config) (e : InboundEvent) : String :=
  let user_text := _read_text_from_event e
  match e.message.media with
  | some m =>
    if m.mtype = "image" then
      let s3k := m.s3_key.getD ""
      if !cfg.mediaBucket.isEmpty && !s3k.isEmpty then
        pyStrip user_text ++
          imageContext ("s3://" ++ cfg.mediaBucket ++ "/" ++ s3k) user_text
      else user_text
    else user_text
  | Option.none => user_text

/-- Embedding of the `wa-process` `lambda_handler`.  External calls are
oracles: `agentOutcome` is the Bedrock agent call (error = raised, ok =
the completion stream), `intentOutcome` the voice-intent `converse` call,
and `ttsUrl` the value `_tts_get_url_sync` returns (it never raises). -/
def lambda_handler (cfg : Config) (e : InboundEvent)
    (agentOutcome : Except Unit (List AgentEvent))
    (intentOutcome : Except Unit PyVal)
    (ttsUrl : Option String) : HandlerResult :=
  let msg := e.message
  if isAudioMedia e then
    if !cfg.transcribeConfigured then
      { statusCode := 200, exit := .noTranscribeFn, transcribeDispatched := false,
        agentCalled := false, ttsCalled := false }
    else
      { statusCode := 200, exit := .dispatchedTranscription,
        transcribeDispatched := true, agentCalled := false, ttsCalled := false }
  else
    let fromTruthy : Bool := match msg.from_id with
      | some s => !s.isEmpty
      | Option.none => false
    if !fromTruthy then
      { statusCode := 200, exit := .noFrom, transcribeDispatched := false,
        agentCalled := false, ttsCalled := false }
    else
      let from_id := msg.from_id.getD ""
      let user_text := effectiveUserText cfg e
      let reply := pyOrS (agentReply agentOutcome) APOLOGY
      let wants_voice := classify_voice_intent user_text intentOutcome
      let afterVoice : Bool → HandlerResult := fun ttsUsed =>
        if pyStrip reply = SENTINEL then
          { statusCode := 200, exit := .alreadyDelivered,
            transcribeDispatched := false, agentCalled := true,
            ttsCalled := ttsUsed }
        else
          { statusCode := 200, exit := .textSent, transcribeDispatched := false,
            agentCalled := true, ttsCalled := ttsUsed,
            sentText := some (_send_whatsapp_text from_id reply) }
      if wants_voice then
        match ttsUrl with
        | some url =>
          { statusCode := 200, exit := .audioSent, transcribeDispatched := false,
            agentCalled := true, ttsCalled := true,
            sentAudio := some (from_id, url) }
        | Option.none => afterVoice true
      else afterVoice false

end WaProcess

namespace WaAudioTranscribe

/-! Embedding of `src/lambdas/wa-audio-transcribe/lambda_function.py`
(job naming only; the rest of that lambda is a single external call). -/

/-- Character class kept by the job-name sanitizer (regex a-zA-Z0-9 and
the hyphen); anything else is replaced by a hyphen. -/
def allowedChar (c : Char) : Bool := c.isAlpha || c.isDigit || c = '-'

def sanitizeChar (c : Char) : Char := if allowedChar c then c else '-'

/-- Embedding of `_job_name`: sanitize "wa-<from>-<messageId>" and cut to
200 characters. -/
def _job_name (from_id message_id : String) : String :=
  String.mk ((("wa-" ++ from_id ++ "-" ++ message_id).toList.map sanitizeChar).take 200)

end WaAudioTranscribe

namespace WaTranscribeFinish

/-! Embedding of `src/lambdas/wa-transcribe-finish/lambda_function.py`:
recovery of `(from_id, message_id)` from a transcription job name. -/

/-- Character class of the second capture group (A-Za-z0-9, underscore,
hyphen). -/
def idChar (c : Char) : Bool := c.isAlpha || c.isDigit || c = '_' || c = '-'

/-- Core of the anchored regex match `wa-([0-9]+)-([A-Za-z0-9_-]+)`: the
first group is the maximal leading digit run (a shorter run cannot be
followed by the required hyphen, so greedy backtracking never helps). -/
def matchCore (l : List Char) : Option (List Char × List Char) :=
  match l with
  | c1 :: c2 :: c3 :: rest =>
    if c1 = 'w' ∧ c2 = 'a' ∧ c3 = '-' then
      let d := rest.takeWhile Char.isDigit
      let r := rest.dropWhile Char.isDigit
      if d.isEmpty then Option.none
      else
        match r with
        | c4 :: tail =>
          if c4 = '-' then
            if !tail.isEmpty && tail.all idChar then some (d, tail)
            else Option.none
          else Option.none
        | [] => Option.none
    else Option.none
  | _ => Option.none

/-- Embedding of the anchored regex match used by `_extract_ids`: the
Python `$` anchor also accepts one trailing newline, which is stripped
before the core match. -/
def matchJobName (l : List Char) : Option (List Char × List Char) :=
  matchCore (if l.getLast? = some '\n' then l.dropLast else l)

/-- Embedding of `_extract_ids`: the `(from_id, message_id)` pair when the
job name matches the pattern, and `none` (Python `(None, None)`)
otherwise. -/
def _extract_ids (jobName : String) : Option (String × String) :=
  (matchJobName jobName.toList).map (fun p => (String.mk p.1, String.mk p.2))

end WaTranscribeFinish

namespace WaSend

/-! Embedding of `src/lambdas/wa-send/lambda_function.py` (text sending). -/

/-- Message body `send_text` posts to the Graph API. -/
structure TextPayload where
  recipient : String
  preview_url : Bool
  body : String
deriving Repr, DecidableEq

/-- Embedding of `send_text`: the delivered body is the text cut to 4096
characters. -/
def send_text (recipient text : String) : TextPayload :=
  { recipient := recipient, preview_url := false, body := pySlice text 4096 }

end WaSend

namespace WaImageAnalyze

/-! Embedding of `src/lambdas/wa-image-analyze/lambda_function.py`.  The
event is an arbitrary Python value; `_analyze_core` (S3 download plus the
vision model call) is an oracle whose error case models any exception it
raises. -/

def lowerStr (s : String) : String := String.mk (s.toList.map Char.toLower)

/-- Embedding of `_parse_parameters_list`: collect \x7bname: value\x7d entries
whose name is a string into a dict (later entries override). -/
def _parse_parameters_list (params : PyVal) : List (String × PyVal) :=
  match params with
  | .list ps =>
    ps.foldl (fun out p =>
      match p with
      | .dict kvs =>
        match dictGet kvs "name" .none with
        | .str name => dictInsert out name (dictGet kvs "value" .none)
        | _ => out
      | _ => out) []
  | _ => []

def startsWithL : List Char → List Char → Bool
  | [], _ => true
  | _ :: _, [] => false
  | a :: as, b :: bs => a = b && startsWithL as bs

/-- Index of the first occurrence of `needle` in the haystack. -/
def findSub (needle : List Char) : List Char → Option Nat
  | [] => if needle.isEmpty then some 0 else Option.none
  | c :: t =>
    if startsWithL needle (c :: t) then some 0
    else (findSub needle t).map (· + 1)

def strInsert (kvs : List (String × String)) (k v : String) :
    List (String × String) :=
  if kvs.any (fun p => p.1 == k) then
    kvs.map (fun p => if p.1 == k then (k, v) else p)
  else kvs ++ [(k, v)]

def ctxGet (ctx : List (String × String)) (k : String) : PyVal :=
  match ctx.find? (fun p => p.1 == k) with
  | some p => .str p.2
  | Option.none => PyVal.none

def OPEN_TAG : List Char := "[image_context]".toList
def CLOSE_TAG : List Char := "[/image_context]".toList

/-- One key-value line of the context block: strip, require a colon, split
at the first colon, strip both halves, keep the three known keys. -/
def parseCtxLine (data : List (String × String)) (ln : List Char) :
    List (String × String) :=
  let s := pyStrip (String.mk ln)
  if s.isEmpty then data
  else if !s.toList.contains ':' then data
  else
    let k := pyStrip (String.mk (s.toList.takeWhile (fun c => c ≠ ':')))
    let v := pyStrip (String.mk ((s.toList.dropWhile (fun c => c ≠ ':')).drop 1))
    if lowerStr k = "s3uri" || lowerStr k = "s3_uri" then strInsert data "s3Uri" v
    else if lowerStr k = "question" then strInsert data "question" v
    else if lowerStr k = "language" then strInsert data "language" v
    else data

/-- Embedding of `_parse_image_context`: the case-insensitive, non-greedy
search for an IMAGE_CONTEXT block (first opening tag, first closing tag
after it), then line-wise key extraction. -/
def _parse_image_context (text : String) : List (String × String) :=
  let low := (text.toList.map Char.toLower)
  match findSub OPEN_TAG low with
  | Option.none => []
  | some i =>
    let afterOpen := text.toList.drop (i + OPEN_TAG.length)
    let lowAfter := low.drop (i + OPEN_TAG.length)
    match findSub CLOSE_TAG lowAfter with
    | Option.none => []
    | some j =>
      let block := afterOpen.take j
      (block.splitOn '\n').foldl parseCtxLine []

/-- Response body payloads of the handler (the JSON text the source builds
with json.dumps, kept structurally). -/
inductive ImgBody where
  | answer (s : String) : ImgBody
  | missingS3 : ImgBody
  | unexpected : ImgBody
deriving Repr, DecidableEq

/-- The two response envelopes: plain proxy-mode response and
agent-tool-mode response (carrying the echoed envelope fields). -/
inductive ImgResp where
  | proxy (statusCode : Nat) (body : ImgBody) : ImgResp
  | agentR (actionGroup apiPath httpMethod : PyVal) (httpStatusCode : Nat)
      (body : ImgBody) : ImgResp
deriving Repr

/-- Python `json.loads(v)` on an arbitrary value: only strings parse
(passing a dict raises TypeError). -/
def pyJsonLoads (v : PyVal) : Except Unit PyVal :=
  match v with
  | .str s => json_loads s
  | _ => .error ()

def paramsGet (params : List (String × PyVal)) (k : String) : PyVal :=
  match params.find? (fun p => p.1 == k) with
  | some p => p.2
  | Option.none => PyVal.none

/-- Body of the handler inside the outer try: both modes, with the
three-tier extraction of s3Uri/question/language in agent-tool mode.
Exceptions propagate to the caller as `Except.error`. -/
def handlerBody (ev : PyVal) (isAgentTool : Bool) (core : Except Unit String) :
    Except Unit ImgResp := do
  if isAgentTool then
    let ag ← pyAttrGet ev "actionGroup" .none
    let action_group := pyOrV ag (.str "ImageTools")
    let ap ← pyAttrGet ev "apiPath" .none
    let api_path := pyOrV ap (.str "/analyze-image")
    let hm ← pyAttrGet ev "httpMethod" .none
    let http_method := pyOrV hm (.str "POST")
    let rb ← pyAttrGet ev "requestBody" .none
    let req_body_raw := pyOrV rb (.str "\x7b\x7d")
    let body := match pyJsonLoads req_body_raw with
      | .ok b => b
      | .error _ => PyVal.dict []
    let s3_uri ← pyAttrGet body "s3Uri" .none
    let question ← pyAttrGet body "question" .none
    let language ← pyAttrGet body "language" .none
    let (s3_uri, question, language) ←
      if !pyTruthy s3_uri then do
        let pv ← pyAttrGet ev "parameters" .none
        let params := _parse_parameters_list pv
        pure (pyOrV s3_uri (paramsGet params "s3Uri"),
              pyOrV question (paramsGet params "question"),
              pyOrV language (paramsGet params "language"))
      else pure (s3_uri, question, language)
    let (s3_uri, question, language) ←
      if !pyTruthy s3_uri then do
        let it ← pyAttrGet ev "inputText" .none
        match pyOrV it (.str "") with
        | .str s =>
          let ctx := _parse_image_context s
          if !ctx.isEmpty then
            pure (ctxGet ctx "s3Uri",
                  pyOrV question (ctxGet ctx "question"),
                  pyOrV language (ctxGet ctx "language"))
          else pure (s3_uri, question, language)
        | _ => Except.error ()
      else pure (s3_uri, question, language)
    if !pyTruthy s3_uri then
      pure (.agentR action_group api_path http_method 400 .missingS3)
    else
      let answer ← core
      pure (.agentR action_group api_path http_method 200 (.answer answer))
  else
    let bodyRaw ← pyAttrGet ev "body" .none
    let body ← match bodyRaw with
      | .str s => json_loads s
      | v => pure (pyOrV v (.dict []))
    let s3_uri ← pyAttrGet body "s3Uri" .none
    let _question ← pyAttrGet body "question" .none
    let _language ← pyAttrGet body "language" .none
    if !pyTruthy s3_uri then
      pure (.proxy 400 .missingS3)
    else
      let answer ← core
      pure (.proxy 200 (.answer answer))

/-- Envelope field recomputed in the except branch (`event.get(k) or d`;
the event is a dict whenever `isAgentTool` holds). -/
def exceptField (ev : PyVal) (k : String) (d : String) : PyVal :=
  match pyAttrGet ev k .none with
  | .ok v => pyOrV v (.str d)
  | .error _ => .str d

/-- Agent-tool-mode test: `isinstance(event, dict) and "actionGroup" in
event`. -/
def isAgentToolEvent (ev : PyVal) : Bool :=
  match ev with
  | .dict kvs => kvs.any (fun p => p.1 == "actionGroup")
  | _ => false

/-- Embedding of the `wa-image-analyze` `lambda_handler`: run the body and
convert any exception into a 500 response of the mode-appropriate shape at
the outermost boundary. -/
def lambda_handler (ev : PyVal) (core : Except Unit String) : ImgResp :=
  let isAgentTool : Bool := isAgentToolEvent ev
  match handlerBody ev isAgentTool core with
  | .ok r => r
  | .error _ =>
    if isAgentTool then
      .agentR (exceptField ev "actionGroup" "ImageTools")
        (exceptField ev "apiPath" "/analyze-image")
        (exceptField ev "httpMethod" "POST") 500 .unexpected
    else .proxy 500 .unexpected

end WaImageAnalyze

namespace WaProcess

/-- Strings carried by the chunk events of a stream (in stream order):
exactly the text pieces the loop sees before its emptiness check. -/
def chunkStrings (evs : List AgentEvent) : List String :=
  evs.filterMap (fun ev =>
    match ev with
    | .chunk b => chunkPiece b
    | _ => Option.none)

/-- Trace summaries of a stream, in stream order. -/
def traceInfos (evs : List AgentEvent) : List TraceInfo :=
  evs.filterMap (fun ev =>
    match ev with
    | .trace t => some t
    | _ => Option.none)

lemma chunkStrings_cons_chunk (b : Option ChunkBytes) (rest : List AgentEvent) :
    chunkStrings (.chunk b :: rest) =
      match chunkPiece b with
      | some p => p :: chunkStrings rest
      | Option.none => chunkStrings rest := by
  cases hcb : chunkPiece b <;> simp [chunkStrings, List.filterMap_cons, hcb]

lemma chunkStrings_cons_trace (t : TraceInfo) (rest : List AgentEvent) :
    chunkStrings (.trace t :: rest) = chunkStrings rest := by
  simp [chunkStrings, List.filterMap_cons]

lemma chunkStrings_cons_guardrail (rest : List AgentEvent) :
    chunkStrings (.guardrail :: rest) = chunkStrings rest := by
  simp [chunkStrings, List.filterMap_cons]

lemma chunkStrings_cons_other (rest : List AgentEvent) :
    chunkStrings (.other :: rest) = chunkStrings rest := by
  simp [chunkStrings, List.filterMap_cons]

lemma traceInfos_cons_chunk (b : Option ChunkBytes) (rest : List AgentEvent) :
    traceInfos (.chunk b :: rest) = traceInfos rest := by
  simp [traceInfos, List.filterMap_cons]

lemma traceInfos_cons_trace (t : TraceInfo) (rest : List AgentEvent) :
    traceInfos (.trace t :: rest) = t :: traceInfos rest := by
  simp [traceInfos, List.filterMap_cons]

lemma traceInfos_cons_guardrail (rest : List AgentEvent) :
    traceInfos (.guardrail :: rest) = traceInfos rest := by
  simp [traceInfos, List.filterMap_cons]

lemma traceInfos_cons_other (rest : List AgentEvent) :
    traceInfos (.other :: rest) = traceInfos rest := by
  simp [traceInfos, List.filterMap_cons]

lemma agentLoop_cons_chunk (b : Option ChunkBytes) (rest : List AgentEvent)
    (parts : List String) (cnt : Nat) (traces : List TraceInfo) (logged : Nat) :
    agentLoop (.chunk b :: rest) parts cnt traces logged =
      match chunkPiece b with
      | some p =>
        if p.isEmpty then agentLoop rest parts cnt traces logged
        else agentLoop rest (parts ++ [p]) (cnt + 1) traces logged
      | Option.none => agentLoop rest parts cnt traces logged := rfl

lemma agentLoop_cons_trace (t : TraceInfo) (rest : List AgentEvent)
    (parts : List String) (cnt : Nat) (traces : List TraceInfo) (logged : Nat) :
    agentLoop (.trace t :: rest) parts cnt traces logged =
      agentLoop rest parts cnt (traces ++ [t])
        (if (traces ++ [t]).length ≤ LOG_TRACE_MAX then logged + 1 else logged) :=
  rfl

lemma agentLoop_cons_guardrail (rest : List AgentEvent)
    (parts : List String) (cnt : Nat) (traces : List TraceInfo) (logged : Nat) :
    agentLoop (.guardrail :: rest) parts cnt traces logged =
      agentLoop rest parts cnt traces logged := rfl

lemma agentLoop_cons_other (rest : List AgentEvent)
    (parts : List String) (cnt : Nat) (traces : List TraceInfo) (logged : Nat) :
    agentLoop (.other :: rest) parts cnt traces logged =
      agentLoop rest parts cnt traces logged := rfl

lemma join_append_empty_piece (parts l : List String) :
    String.join (parts ++ "" :: l) = String.join (parts ++ l) := by
  apply String.ext
  simp [String.data_join]

lemma agentLoop_text (evs : List AgentEvent) :
    ∀ parts cnt traces logged,
    (agentLoop evs parts cnt traces logged).text =
      pyStrip (String.join (parts ++ chunkStrings evs)) := by
  induction evs with
  | nil => intro parts cnt traces logged; simp [agentLoop, chunkStrings]
  | cons ev rest ih =>
    intro parts cnt traces logged
    cases ev with
    | chunk b =>
      cases h : chunkPiece b with
      | none =>
        simp only [agentLoop_cons_chunk, chunkStrings_cons_chunk, h]
        exact ih parts cnt traces logged
      | some p =>
        simp only [agentLoop_cons_chunk, chunkStrings_cons_chunk, h]
        by_cases hp : p.isEmpty
        · have hpe : p = "" := (String.isEmpty_iff p).mp hp
          subst hpe
          rw [if_pos hp, ih parts cnt traces logged, join_append_empty_piece]
        · rw [if_neg hp, ih (parts ++ [p]) (cnt + 1) traces logged,
            List.append_assoc]
          rfl
    | trace t =>
      rw [agentLoop_cons_trace, chunkStrings_cons_trace]
      exact ih _ _ _ _
    | guardrail =>
      rw [agentLoop_cons_guardrail, chunkStrings_cons_guardrail]
      exact ih _ _ _ _
    | other =>
      rw [agentLoop_cons_other, chunkStrings_cons_other]
      exact ih _ _ _ _

lemma agentLoop_traces (evs : List AgentEvent) :
    ∀ parts cnt traces logged,
    (agentLoop evs parts cnt traces logged).trace_events =
      traces ++ traceInfos evs := by
  induction evs with
  | nil => intro parts cnt traces logged; simp [agentLoop, traceInfos]
  | cons ev rest ih =>
    intro parts cnt traces logged
    cases ev with
    | chunk b =>
      cases h : chunkPiece b with
      | none =>
        simp only [agentLoop_cons_chunk, traceInfos_cons_chunk, h]
        exact ih _ _ _ _
      | some p =>
        simp only [agentLoop_cons_chunk, traceInfos_cons_chunk, h]
        by_cases hp : p.isEmpty
        · rw [if_pos hp]; exact ih _ _ _ _
        · rw [if_neg hp]; exact ih _ _ _ _
    | trace t =>
      rw [agentLoop_cons_trace, traceInfos_cons_trace, ih _ _ _ _,
        List.append_assoc]
      rfl
    | guardrail =>
      rw [agentLoop_cons_guardrail, traceInfos_cons_guardrail]
      exact ih _ _ _ _
    | other =>
      rw [agentLoop_cons_other, traceInfos_cons_other]
      exact ih _ _ _ _

lemma agentLoop_logged (evs : List AgentEvent) :
    ∀ parts cnt traces logged, logged = min traces.length LOG_TRACE_MAX →
    (agentLoop evs parts cnt traces logged).logged_traces =
      min (traces.length + (traceInfos evs).length) LOG_TRACE_MAX := by
  induction evs with
  | nil =>
    intro parts cnt traces logged h
    simp [agentLoop, traceInfos, h]
  | cons ev rest ih =>
    intro parts cnt traces logged h
    cases ev with
    | chunk b =>
      cases hc : chunkPiece b with
      | none =>
        simp only [agentLoop_cons_chunk, traceInfos_cons_chunk, hc]
        exact ih _ _ _ _ h
      | some p =>
        simp only [agentLoop_cons_chunk, traceInfos_cons_chunk, hc]
        by_cases hp : p.isEmpty
        · rw [if_pos hp]; exact ih _ _ _ _ h
        · rw [if_neg hp]; exact ih _ _ _ _ h
    | trace t =>
      rw [agentLoop_cons_trace, traceInfos_cons_trace,
        ih _ _ (traces ++ [t]) _
          (by subst h
              simp only [List.length_append, List.length_cons, List.length_nil]
              split <;> omega)]
      simp only [List.length_append, List.length_cons, List.length_nil]
      omega
    | guardrail =>
      rw [agentLoop_cons_guardrail, traceInfos_cons_guardrail]
      exact ih _ _ _ _ h
    | other =>
      rw [agentLoop_cons_other, traceInfos_cons_other]
      exact ih _ _ _ _ h

end WaProcess

/-- Claim C4, counterexample: a single chunk carrying " a" yields
finalText "a" (the source strips the joined text), which differs from the
plain concatenation " a" of the chunk strings. -/
theorem stream_concat_counterexample :
    WaProcess.chunkStrings [WaProcess.AgentEvent.chunk
      (some (.bytesVal " a"))] = [" a"] ∧
    (WaProcess.invoke_agent [WaProcess.AgentEvent.chunk
      (some (.bytesVal " a"))]).text = "a" ∧
    (WaProcess.invoke_agent [WaProcess.AgentEvent.chunk
      (some (.bytesVal " a"))]).text ≠ String.join [" a"] := by
  refine ⟨rfl, rfl, ?_⟩
  decide

/-- Claim C4 (amended): for every finite stream, the assembled finalText
equals the whitespace-stripped concatenation of the chunk strings in
stream order (no reordering or deduplication; trace and guardrail events
contribute nothing). -/
theorem stream_concat_amended (evs : List WaProcess.AgentEvent) :
    (WaProcess.invoke_agent evs).text =
      pyStrip (String.join (WaProcess.chunkStrings evs)) := by
  unfold WaProcess.invoke_agent
  rw [WaProcess.agentLoop_text]
  simp

/-- Claim C5, counterexample: a stream of 11 trace events leaves 11
retained trace summaries in the result, exceeding the claimed cap of 10
(the source caps only the logging, not the retained list). -/
theorem trace_cap_counterexample :
    (WaProcess.invoke_agent (List.replicate 11
      (WaProcess.AgentEvent.trace {}))).trace_events.length = 11 ∧
    ¬ (WaProcess.invoke_agent (List.replicate 11
      (WaProcess.AgentEvent.trace {}))).trace_events.length ≤
        WaProcess.LOG_TRACE_MAX := by
  exact ⟨rfl, by decide⟩

/-- Claim C5 (amended): the result retains every trace event of the
stream, in order; the cap of LOG_TRACE_MAX = 10 bounds only how many of
them are logged. -/
theorem trace_cap_amended (evs : List WaProcess.AgentEvent) :
    (WaProcess.invoke_agent evs).trace_events = WaProcess.traceInfos evs ∧
    (WaProcess.invoke_agent evs).logged_traces =
      min (WaProcess.traceInfos evs).length WaProcess.LOG_TRACE_MAX := by
  unfold WaProcess.invoke_agent
  refine ⟨?_, ?_⟩
  · rw [WaProcess.agentLoop_traces]
    simp
  · have h := WaProcess.agentLoop_logged evs [] 0 [] 0 (by decide)
    rw [h]
    simp

/-- Claim C10: every text body handed to the messaging channel is capped
at 4096 characters, both in the orchestrator's send payload and in the
outbound dispatcher's Graph API body. -/
theorem outbound_text_capped (recipient text : String) :
    (WaProcess._send_whatsapp_text recipient text).2.length ≤ 4096 ∧
    (WaSend.send_text recipient text).body.length ≤ 4096 := by
  constructor <;>
  · simp only [WaProcess._send_whatsapp_text, WaSend.send_text, pySlice,
      String.length, List.length_take]
    omega

lemma isPyTrue_iff (v : PyVal) : isPyTrue v = true ↔ v = .bool true := by
  cases v with
  | bool b => cases b <;> simp [isPyTrue]
  | none => simp [isPyTrue]
  | str s => simp [isPyTrue]
  | int n => simp [isPyTrue]
  | floatLit s => simp [isPyTrue]
  | list xs => simp [isPyTrue]
  | dict kvs => simp [isPyTrue]

lemma voiceOfObj_ok_true_iff (obj : PyVal) :
    WaProcess.voiceOfObj obj = .ok true ↔
      ∃ kvs, obj = .dict kvs ∧ dictGet kvs "voice" .none = .bool true := by
  cases obj with
  | dict kvs =>
    simp only [WaProcess.voiceOfObj, pyAttrGet, Except.ok.injEq,
      PyVal.dict.injEq]
    constructor
    · intro h
      exact ⟨kvs, rfl, (isPyTrue_iff _).mp h⟩
    · rintro ⟨kvs', hk, hv⟩
      subst hk
      exact (isPyTrue_iff _).mpr hv
  | none => simp [WaProcess.voiceOfObj, pyAttrGet]
  | bool b => simp [WaProcess.voiceOfObj, pyAttrGet]
  | str s => simp [WaProcess.voiceOfObj, pyAttrGet]
  | int n => simp [WaProcess.voiceOfObj, pyAttrGet]
  | floatLit s => simp [WaProcess.voiceOfObj, pyAttrGet]
  | list xs => simp [WaProcess.voiceOfObj, pyAttrGet]

lemma classifyBody_ok_true_iff (resp : PyVal) :
    WaProcess.classifyBody resp = .ok true ↔
      ∃ raw kvs, WaProcess.extractRawText resp = .ok raw ∧ raw ≠ "" ∧
        json_loads raw = .ok (.dict kvs) ∧
        dictGet kvs "voice" .none = .bool true := by
  cases h1 : WaProcess.extractRawText resp with
  | error e =>
    have e1 : WaProcess.classifyBody resp = .error e := by
      unfold WaProcess.classifyBody; rw [h1]
    rw [e1]
    simp
  | ok raw =>
    have e1 : WaProcess.classifyBody resp =
        (match WaProcess.voiceObj raw with
         | .error e => .error e
         | .ok obj => WaProcess.voiceOfObj obj) := by
      unfold WaProcess.classifyBody; rw [h1]
    rw [e1]
    cases hr : raw.isEmpty with
    | true =>
      have hre : raw = "" := (String.isEmpty_iff raw).mp hr
      subst hre
      rw [show WaProcess.voiceObj "" = .ok (.dict []) from rfl]
      constructor
      · intro h
        rw [voiceOfObj_ok_true_iff] at h
        obtain ⟨kvs, hk, hv⟩ := h
        injection hk with hk2
        subst hk2
        exact absurd hv (by simp [dictGet])
      · rintro ⟨raw', kvs', hraw, hne, hjson, hv⟩
        injection hraw with hr2
        exact absurd hr2.symm hne
    | false =>
      have hrne : raw ≠ "" := fun hc => by subst hc; exact absurd hr (by decide)
      rw [show WaProcess.voiceObj raw = json_loads raw from by
        unfold WaProcess.voiceObj; rw [if_neg (by simp [hr])]]
      cases h2 : json_loads raw with
      | error e => simp [h2]
      | ok obj =>
        rw [voiceOfObj_ok_true_iff]
        constructor
        · rintro ⟨kvs, rfl, hv⟩
          exact ⟨raw, kvs, rfl, hrne, h2, hv⟩
        · rintro ⟨raw', kvs', hraw, hne, hjson, hv⟩
          injection hraw with hr2
          subst hr2
          rw [h2] at hjson
          injection hjson with hj
          exact ⟨kvs', hj, hv⟩

/-- Claim C3: the voice-intent decision is true exactly when the user text
is nonempty after stripping and the classifier call succeeded with output
that parses as a JSON object whose "voice" key is exactly the boolean
true; a timeout or raised error (the Except.error case), unparseable
output, or any other shape of output yields false. -/
theorem voice_intent_fail_closed (t : String) (o : Except Unit PyVal) :
    WaProcess.classify_voice_intent t o = true ↔
      ((pyStrip t).isEmpty = false ∧
       ∃ resp raw kvs, o = Except.ok resp ∧
         WaProcess.extractRawText resp = Except.ok raw ∧ raw ≠ "" ∧
         json_loads raw = Except.ok (PyVal.dict kvs) ∧
         dictGet kvs "voice" PyVal.none = PyVal.bool true) := by
  by_cases ht : (pyStrip t).isEmpty
  · simp [WaProcess.classify_voice_intent, ht]
  · cases o with
    | error e => simp [WaProcess.classify_voice_intent, ht]
    | ok resp =>
      have hbody := classifyBody_ok_true_iff resp
      constructor
      · intro h
        have hob : WaProcess.classifyBody resp = .ok true := by
          revert h
          simp only [WaProcess.classify_voice_intent, if_neg ht]
          cases hb : WaProcess.classifyBody resp with
          | error e => simp
          | ok b => cases b <;> simp
        obtain ⟨raw, kvs, h1, h2, h3, h4⟩ := hbody.mp hob
        exact ⟨by simpa using ht, resp, raw, kvs, rfl, h1, h2, h3, h4⟩
      · rintro ⟨ht', resp', raw, kvs, hor, h1, h2, h3, h4⟩
        injection hor with hre
        subst hre
        simp only [WaProcess.classify_voice_intent, if_neg ht,
          hbody.mpr ⟨raw, kvs, h1, h2, h3, h4⟩]

lemma takeWhile_append_of_all {p : Char → Bool} (c : Char) (m : List Char)
    (hc : p c = false) :
    ∀ f : List Char, (∀ x ∈ f, p x = true) →
    (f ++ c :: m).takeWhile p = f := by
  intro f
  induction f with
  | nil => intro _; simp [List.takeWhile_cons, hc]
  | cons a t ih =>
    intro hf
    have ha : p a = true := hf a (List.mem_cons_self a t)
    simp only [List.cons_append, List.takeWhile_cons, ha, if_true]
    rw [ih (fun x hx => hf x (List.mem_cons_of_mem a hx))]

lemma dropWhile_append_of_all {p : Char → Bool} (c : Char) (m : List Char)
    (hc : p c = false) :
    ∀ f : List Char, (∀ x ∈ f, p x = true) →
    (f ++ c :: m).dropWhile p = c :: m := by
  intro f
  induction f with
  | nil => intro _; simp [List.dropWhile_cons, hc]
  | cons a t ih =>
    intro hf
    have ha : p a = true := hf a (List.mem_cons_self a t)
    simp only [List.cons_append, List.dropWhile_cons, ha, if_true]
    exact ih (fun x hx => hf x (List.mem_cons_of_mem a hx))

lemma map_sanitize_of_allowed :
    ∀ l : List Char, (∀ x ∈ l, WaAudioTranscribe.allowedChar x = true) →
    l.map WaAudioTranscribe.sanitizeChar = l := by
  intro l
  induction l with
  | nil => intro _; rfl
  | cons a t ih =>
    intro hl
    have ha := hl a (List.mem_cons_self a t)
    simp only [List.map_cons, WaAudioTranscribe.sanitizeChar, ha, if_true]
    rw [ih (fun x hx => hl x (List.mem_cons_of_mem a hx))]

lemma digit_allowed (c : Char) (h : c.isDigit = true) :
    WaAudioTranscribe.allowedChar c = true := by
  simp [WaAudioTranscribe.allowedChar, h]

lemma allowed_not_nl (c : Char) (h : WaAudioTranscribe.allowedChar c = true) :
    c ≠ '\n' := by
  intro hc
  subst hc
  exact absurd h (by decide)

lemma allowed_idChar (c : Char) (h : WaAudioTranscribe.allowedChar c = true) :
    WaTranscribeFinish.idChar c = true := by
  simp only [WaAudioTranscribe.allowedChar, Bool.or_eq_true] at h
  simp only [WaTranscribeFinish.idChar, Bool.or_eq_true]
  tauto

/-- Claim C2, counterexample: the conversation key "abc" and message id
"X" lie entirely in the sanitizer's allowed character class, yet decoding
the encoded job name yields no match (the decoder requires a digits-only
first group), so the round trip fails. -/
theorem jobname_roundtrip_counterexample :
    (∀ c ∈ "abc".toList, WaAudioTranscribe.allowedChar c = true) ∧
    (∀ c ∈ "X".toList, WaAudioTranscribe.allowedChar c = true) ∧
    WaTranscribeFinish._extract_ids (WaAudioTranscribe._job_name "abc" "X") =
      Option.none := by
  exact ⟨by decide, by decide, rfl⟩

lemma jobname_toList (f m : String) :
    ("wa-" ++ f ++ "-" ++ m).toList =
      'w' :: 'a' :: '-' :: (f.toList ++ '-' :: m.toList) := by
  have h1 : ("wa-" ++ f ++ "-" ++ m).data =
      "wa-".data ++ f.data ++ "-".data ++ m.data := by
    simp [String.data_append]
  have h2 : "wa-".data = ['w', 'a', '-'] := rfl
  have h3 : "-".data = ['-'] := rfl
  show ("wa-" ++ f ++ "-" ++ m).data = _
  rw [h1, h2, h3]
  simp

lemma matchCore_some (l d t : List Char)
    (h : WaTranscribeFinish.matchCore l = some (d, t)) :
    d ≠ [] ∧ (∀ c ∈ d, c.isDigit = true) ∧ t ≠ [] ∧
    (∀ c ∈ t, WaTranscribeFinish.idChar c = true) ∧
    l = 'w' :: 'a' :: '-' :: (d ++ '-' :: t) := by
  rcases l with _ | ⟨c1, _ | ⟨c2, _ | ⟨c3, rest⟩⟩⟩
  · simp [WaTranscribeFinish.matchCore] at h
  · simp [WaTranscribeFinish.matchCore] at h
  · simp [WaTranscribeFinish.matchCore] at h
  · simp only [WaTranscribeFinish.matchCore] at h
    by_cases h3 : c1 = 'w' ∧ c2 = 'a' ∧ c3 = '-'
    · rw [if_pos h3] at h
      obtain ⟨e1, e2, e3⟩ := h3
      subst e1; subst e2; subst e3
      by_cases hd : (rest.takeWhile Char.isDigit).isEmpty
      · rw [if_pos hd] at h; simp at h
      · rw [if_neg hd] at h
        cases hr : rest.dropWhile Char.isDigit with
        | nil =>
          rw [hr] at h
          simp only [] at h
          exact absurd h (by simp)
        | cons c4 tail =>
          rw [hr] at h
          simp only [] at h
          by_cases h4 : c4 = '-'
          · rw [if_pos h4] at h
            subst h4
            by_cases h5 : (!tail.isEmpty && tail.all WaTranscribeFinish.idChar) = true
            · rw [if_pos h5] at h
              simp only [Option.some.injEq, Prod.mk.injEq] at h
              obtain ⟨hdq, htq⟩ := h
              subst hdq; subst htq
              obtain ⟨h5a, h5b⟩ := Bool.and_eq_true_iff.mp h5
              refine ⟨?_, ?_, ?_, ?_, ?_⟩
              · intro hc
                exact hd (by rw [hc]; rfl)
              · exact fun c hc => List.mem_takeWhile_imp hc
              · intro hc
                rw [hc] at h5a
                exact absurd h5a (by decide)
              · exact fun c hc => (List.all_eq_true.mp h5b) c hc
              · have hsplit := List.takeWhile_append_dropWhile
                  (p := Char.isDigit) (l := rest)
                rw [hr] at hsplit
                exact congrArg (fun l => 'w' :: 'a' :: '-' :: l) hsplit.symm
            · rw [if_neg h5] at h; simp at h
          · rw [if_neg h4] at h; simp at h
    · rw [if_neg h3] at h; simp at h

lemma matchCore_cons (c1 c2 c3 : Char) (rest : List Char) :
    WaTranscribeFinish.matchCore (c1 :: c2 :: c3 :: rest) =
      if c1 = 'w' ∧ c2 = 'a' ∧ c3 = '-' then
        (if (rest.takeWhile Char.isDigit).isEmpty then Option.none
         else
           match rest.dropWhile Char.isDigit with
           | c4 :: tail =>
             if c4 = '-' then
               if !tail.isEmpty && tail.all WaTranscribeFinish.idChar then
                 some (rest.takeWhile Char.isDigit, tail)
               else Option.none
             else Option.none
           | [] => Option.none)
      else Option.none := rfl

lemma matchCore_wellformed (fl ml : List Char) (hfl : fl ≠ [])
    (hfd : ∀ c ∈ fl, c.isDigit = true) (hml : ml ≠ [])
    (hid : ∀ c ∈ ml, WaTranscribeFinish.idChar c = true) :
    WaTranscribeFinish.matchCore ('w' :: 'a' :: '-' :: (fl ++ '-' :: ml)) =
      some (fl, ml) := by
  rw [matchCore_cons, if_pos ⟨rfl, rfl, rfl⟩,
    takeWhile_append_of_all '-' ml (by decide) fl hfd,
    dropWhile_append_of_all '-' ml (by decide) fl hfd,
    if_neg (by simp only [List.isEmpty_iff]; exact hfl)]
  show (if ('-' : Char) = '-' then
      (if !ml.isEmpty && ml.all WaTranscribeFinish.idChar then some (fl, ml)
       else Option.none)
    else Option.none) = some (fl, ml)
  have h1 : ml.isEmpty = false := by
    cases hml2 : ml with
    | nil => exact absurd hml2 hml
    | cons a tl => rfl
  have h2 : ml.all WaTranscribeFinish.idChar = true := List.all_eq_true.mpr hid
  rw [if_pos rfl, if_pos (by rw [h1, h2]; rfl)]

/-- Claim C2 (amended), part 1: the round trip holds when the conversation
key is a nonempty digits-only string, the message id is nonempty over the
allowed class (letters, digits, hyphen; an underscore would be sanitized
away), and the job name is short enough not to be truncated.  Part 2:
whenever the decoder matches at all, the job name necessarily has the
pattern shape wa-digits-hyphen-idchars (up to one trailing newline), so
any string outside that pattern decodes to the no-match result; the
decoder is a total function, modelling that `_extract_ids` never throws. -/
theorem jobname_roundtrip_amended :
    (∀ f m : String, f ≠ "" → (∀ c ∈ f.toList, c.isDigit = true) →
      m ≠ "" → (∀ c ∈ m.toList, WaAudioTranscribe.allowedChar c = true) →
      f.length + m.length + 4 ≤ 200 →
      WaTranscribeFinish._extract_ids (WaAudioTranscribe._job_name f m) =
        some (f, m)) ∧
    (∀ s f m, WaTranscribeFinish._extract_ids s = some (f, m) →
      f ≠ "" ∧ (∀ c ∈ f.toList, c.isDigit = true) ∧
      m ≠ "" ∧ (∀ c ∈ m.toList, WaTranscribeFinish.idChar c = true) ∧
      (s = "wa-" ++ f ++ "-" ++ m ∨ s = "wa-" ++ f ++ "-" ++ m ++ "\n")) := by
  constructor
  · intro f m hf hfd hm hma hlen
    have hfl : f.toList ≠ [] := fun hc => hf (String.ext hc)
    have hml : m.toList ≠ [] := fun hc => hm (String.ext hc)
    have hallowed : ∀ x ∈ 'w' :: 'a' :: '-' :: (f.toList ++ '-' :: m.toList),
        WaAudioTranscribe.allowedChar x = true := by
      intro x hx
      rcases List.mem_cons.mp hx with h | hx2
      · subst h; decide
      rcases List.mem_cons.mp hx2 with h | hx3
      · subst h; decide
      rcases List.mem_cons.mp hx3 with h | hx4
      · subst h; decide
      rcases List.mem_append.mp hx4 with h | hx5
      · exact digit_allowed x (hfd x h)
      rcases List.mem_cons.mp hx5 with h | h
      · subst h; decide
      · exact hma x h
    unfold WaAudioTranscribe._job_name WaTranscribeFinish._extract_ids
    rw [jobname_toList,
      map_sanitize_of_allowed _ hallowed,
      List.take_of_length_le (by
        simp only [List.length_cons, List.length_append]
        have hfll : f.toList.length = f.length := rfl
        have hmll : m.toList.length = m.length := rfl
        omega)]
    have hlast : ('w' :: 'a' :: '-' :: (f.toList ++ '-' :: m.toList)).getLast?
        ≠ some '\n' := by
      intro hc
      have h1 : ('w' :: 'a' :: '-' :: (f.toList ++ '-' :: m.toList)).getLast?
          = ('-' :: m.toList).getLast? := by
        have h0 : 'w' :: 'a' :: '-' :: (f.toList ++ '-' :: m.toList) =
            (['w', 'a', '-'] ++ f.toList) ++ '-' :: m.toList := by simp
        rw [h0]
        exact List.getLast?_append_of_ne_nil _ (by simp)
      have h2 : ('-' :: m.toList).getLast? = m.toList.getLast? := by
        rw [show ('-' :: m.toList) = ['-'] ++ m.toList from rfl]
        exact List.getLast?_append_of_ne_nil _ hml
      rw [h1, h2] at hc
      have hmem : '\n' ∈ m.toList := by
        obtain ⟨hne2, hEq⟩ := List.mem_getLast?_eq_getLast hc
        rw [hEq]
        exact List.getLast_mem hne2
      exact allowed_not_nl '\n' (hma '\n' hmem) rfl
    have hmtl : (String.mk ('w' :: 'a' :: '-' :: (f.toList ++ '-' :: m.toList))).toList
        = 'w' :: 'a' :: '-' :: (f.toList ++ '-' :: m.toList) := rfl
    rw [hmtl]
    unfold WaTranscribeFinish.matchJobName
    rw [if_neg hlast,
      matchCore_wellformed f.toList m.toList hfl hfd hml
        (fun c hc => allowed_idChar c (hma c hc))]
    rfl
  · intro s f m h
    unfold WaTranscribeFinish._extract_ids WaTranscribeFinish.matchJobName at h
    cases hmc : WaTranscribeFinish.matchCore
        (if s.toList.getLast? = some '\n' then s.toList.dropLast else s.toList) with
    | none => rw [hmc] at h; exact Option.noConfusion h
    | some p =>
      obtain ⟨d, t⟩ := p
      rw [hmc] at h
      have h9 : some (String.mk d, String.mk t) = some (f, m) := h
      injection h9 with h8
      have hdf : String.mk d = f := congrArg Prod.fst h8
      have htm : String.mk t = m := congrArg Prod.snd h8
      obtain ⟨hne, hdig, htne, hid, hshape⟩ := matchCore_some _ _ _ hmc
      subst hdf; subst htm
      have hfne : String.mk d ≠ "" := by
        intro hc
        exact hne (by
          have h0 := congrArg String.data hc
          exact h0)
      have hmne : String.mk t ≠ "" := by
        intro hc
        exact htne (by
          have h0 := congrArg String.data hc
          exact h0)
      refine ⟨hfne, hdig, hmne, hid, ?_⟩
      have hrhs : ("wa-" ++ String.mk d ++ "-" ++ String.mk t).toList =
          'w' :: 'a' :: '-' :: (d ++ '-' :: t) := jobname_toList _ _
      by_cases hnl : s.toList.getLast? = some '\n'
      · right
        rw [if_pos hnl] at hshape
        have hddl : s.toList.dropLast ++ ['\n'] = s.toList :=
          List.dropLast_append_getLast? '\n' hnl
        rw [hshape] at hddl
        have hrhs2 : ("wa-" ++ String.mk d ++ "-" ++ String.mk t ++ "\n").toList =
            ('w' :: 'a' :: '-' :: (d ++ '-' :: t)) ++ ['\n'] := by
          show ("wa-" ++ String.mk d ++ "-" ++ String.mk t ++ "\n").data =
            ('w' :: 'a' :: '-' :: (d ++ '-' :: t)) ++ ['\n']
          rw [String.data_append ("wa-" ++ String.mk d ++ "-" ++ String.mk t) "\n",
            show ("wa-" ++ String.mk d ++ "-" ++ String.mk t).data =
              'w' :: 'a' :: '-' :: (d ++ '-' :: t) from hrhs]
        exact String.ext (hddl.symm.trans hrhs2.symm)
      · left
        rw [if_neg hnl] at hshape
        exact String.ext (hshape.trans hrhs.symm)

/-- Claim C2 (amended), witness: a digits-only key round trips, and a
successful decode exhibits the pattern shape. -/
theorem jobname_roundtrip_amended_witness :
    WaTranscribeFinish._extract_ids
      (WaAudioTranscribe._job_name "15551234567" "MSGID1") =
        some ("15551234567", "MSGID1") ∧
    ("15551234567" ≠ "" ∧
      (∀ c ∈ "15551234567".toList, c.isDigit = true) ∧
      "MSGID1" ≠ "" ∧
      (∀ c ∈ "MSGID1".toList, WaTranscribeFinish.idChar c = true) ∧
      ("wa-15551234567-MSGID1" = "wa-" ++ "15551234567" ++ "-" ++ "MSGID1" ∨
       "wa-15551234567-MSGID1" =
        "wa-" ++ "15551234567" ++ "-" ++ "MSGID1" ++ "\n")) := by
  constructor
  · exact jobname_roundtrip_amended.1 "15551234567" "MSGID1" (by decide)
      (by decide) (by decide) (by decide) (by decide)
  · exact jobname_roundtrip_amended.2 "wa-15551234567-MSGID1" "15551234567"
      "MSGID1" (by decide)

/-- Claim C7: an inbound event whose kind is audio and whose media is
present (the ingestion invariant makes the媒体 type equal the event kind)
is dispatched to transcription, with no generation-backend call and no
outbound send, provided the transcription target is configured. -/
theorem audio_dispatch_confirmed (cfg : WaProcess.Config)
    (e : WaProcess.InboundEvent) (agentO : Except Unit (List WaProcess.AgentEvent))
    (intentO : Except Unit PyVal) (tts : Option String)
    (mr : WaProcess.MediaRef)
    (hkind : e.message.mtype = some "audio")
    (hmedia : e.message.media = some mr) (hmt : mr.mtype = "audio")
    (hcfg : cfg.transcribeConfigured = true) :
    (WaProcess.lambda_handler cfg e agentO intentO tts).exit =
      WaProcess.ExitPoint.dispatchedTranscription ∧
    (WaProcess.lambda_handler cfg e agentO intentO tts).transcribeDispatched = true ∧
    (WaProcess.lambda_handler cfg e agentO intentO tts).agentCalled = false ∧
    (WaProcess.lambda_handler cfg e agentO intentO tts).sentText = Option.none ∧
    (WaProcess.lambda_handler cfg e agentO intentO tts).sentAudio = Option.none := by
  have haudio : WaProcess.isAudioMedia e = true := by
    simp [WaProcess.isAudioMedia, hmedia, hmt]
  simp [WaProcess.lambda_handler, haudio, hcfg]

/-- Claim C7, witness: a concrete audio event with media dispatches to
transcription without calling the agent or sending anything. -/
theorem audio_dispatch_confirmed_witness :
    (WaProcess.lambda_handler ⟨true, "media-bucket"⟩
      ⟨{ mtype := some "audio", from_id := some "123",
         media := some { mtype := "audio" } }⟩
      (Except.ok []) (Except.error ()) Option.none).exit =
        WaProcess.ExitPoint.dispatchedTranscription ∧
    (WaProcess.lambda_handler ⟨true, "media-bucket"⟩
      ⟨{ mtype := some "audio", from_id := some "123",
         media := some { mtype := "audio" } }⟩
      (Except.ok []) (Except.error ()) Option.none).transcribeDispatched = true ∧
    (WaProcess.lambda_handler ⟨true, "media-bucket"⟩
      ⟨{ mtype := some "audio", from_id := some "123",
         media := some { mtype := "audio" } }⟩
      (Except.ok []) (Except.error ()) Option.none).agentCalled = false ∧
    (WaProcess.lambda_handler ⟨true, "media-bucket"⟩
      ⟨{ mtype := some "audio", from_id := some "123",
         media := some { mtype := "audio" } }⟩
      (Except.ok []) (Except.error ()) Option.none).sentText = Option.none ∧
    (WaProcess.lambda_handler ⟨true, "media-bucket"⟩
      ⟨{ mtype := some "audio", from_id := some "123",
         media := some { mtype := "audio" } }⟩
      (Except.ok []) (Except.error ()) Option.none).sentAudio = Option.none :=
  audio_dispatch_confirmed ⟨true, "media-bucket"⟩
    ⟨{ mtype := some "audio", from_id := some "123",
       media := some { mtype := "audio" } }⟩
    (Except.ok []) (Except.error ()) Option.none { mtype := "audio" }
    rfl rfl rfl rfl

/-- Claim C1, counterexample: an audio-kind event with no media is not
dropped by the handler; it falls through to the text path, invokes the
generation backend and sends a text reply ("Hi") built from the stream. -/
theorem audio_without_media_counterexample :
    (WaProcess.lambda_handler ⟨true, "media-bucket"⟩
      ⟨{ mtype := some "audio", from_id := some "123" }⟩
      (Except.ok [WaProcess.AgentEvent.chunk (some (.strVal "Hi"))])
      (Except.error ()) Option.none).agentCalled = true ∧
    (WaProcess.lambda_handler ⟨true, "media-bucket"⟩
      ⟨{ mtype := some "audio", from_id := some "123" }⟩
      (Except.ok [WaProcess.AgentEvent.chunk (some (.strVal "Hi"))])
      (Except.error ()) Option.none).sentText = some ("123", "Hi") ∧
    (WaProcess.lambda_handler ⟨true, "media-bucket"⟩
      ⟨{ mtype := some "audio", from_id := some "123" }⟩
      (Except.ok [WaProcess.AgentEvent.chunk (some (.strVal "Hi"))])
      (Except.error ()) Option.none).exit = WaProcess.ExitPoint.textSent :=
  ⟨rfl, rfl, rfl⟩

/-- Claim C1 (amended): an audio-kind event whose media is absent is not
dispatched to transcription and is not dropped; the handler treats it as a
text event (fallback text "Hola"), invoking the generation backend; it is
dropped only when the sender id is missing or empty. -/
theorem audio_without_media_amended (cfg : WaProcess.Config)
    (e : WaProcess.InboundEvent)
    (agentO : Except Unit (List WaProcess.AgentEvent))
    (intentO : Except Unit PyVal) (tts : Option String) (f : String)
    (hkind : e.message.mtype = some "audio")
    (hmedia : e.message.media = Option.none)
    (hfrom : e.message.from_id = some f) (hf : f ≠ "") :
    (WaProcess.lambda_handler cfg e agentO intentO tts).transcribeDispatched
      = false ∧
    (WaProcess.lambda_handler cfg e agentO intentO tts).agentCalled = true ∧
    (WaProcess.lambda_handler cfg e agentO intentO tts).exit ≠
      WaProcess.ExitPoint.dispatchedTranscription := by
  have hna : WaProcess.isAudioMedia e = false := by
    simp [WaProcess.isAudioMedia, hmedia]
  have hfe : f.isEmpty = false := by
    cases hfi : f.isEmpty
    · rfl
    · exact absurd ((String.isEmpty_iff f).mp hfi) hf
  simp only [WaProcess.lambda_handler, hna, hfrom, hfe, Bool.false_eq_true,
    if_false, Bool.not_false, Bool.not_true, if_true]
  refine ⟨?_, ?_, ?_⟩ <;> (repeat' split) <;> simp

/-- Claim C1 (amended), witness: a concrete audio event without media and
with a sender id takes the text path. -/
theorem audio_without_media_amended_witness :
    (WaProcess.lambda_handler ⟨true, "media-bucket"⟩
      ⟨{ mtype := some "audio", from_id := some "555" }⟩
      (Except.error ()) (Except.error ()) Option.none).transcribeDispatched
        = false ∧
    (WaProcess.lambda_handler ⟨true, "media-bucket"⟩
      ⟨{ mtype := some "audio", from_id := some "555" }⟩
      (Except.error ()) (Except.error ()) Option.none).agentCalled = true ∧
    (WaProcess.lambda_handler ⟨true, "media-bucket"⟩
      ⟨{ mtype := some "audio", from_id := some "555" }⟩
      (Except.error ()) (Except.error ()) Option.none).exit ≠
        WaProcess.ExitPoint.dispatchedTranscription :=
  audio_without_media_amended ⟨true, "media-bucket"⟩
    ⟨{ mtype := some "audio", from_id := some "555" }⟩
    (Except.error ()) (Except.error ()) Option.none "555" rfl rfl rfl
    (by decide)

/-- Claim C8: for a non-audio event with a sender id, when the agent call
raises or assembles an empty reply, the handler substitutes the fixed
apology and still performs an outbound delivery (text, or audio when the
voice path succeeds); the response status is the non-error 200 in every
case. -/
theorem fallback_apology_confirmed (cfg : WaProcess.Config)
    (e : WaProcess.InboundEvent)
    (agentO : Except Unit (List WaProcess.AgentEvent))
    (intentO : Except Unit PyVal) (tts : Option String) (f : String)
    (hna : WaProcess.isAudioMedia e = false)
    (hfrom : e.message.from_id = some f) (hf : f ≠ "")
    (hfail : WaProcess.agentReply agentO = "") :
    (WaProcess.lambda_handler cfg e agentO intentO tts).statusCode = 200 ∧
    ((∃ u, (WaProcess.lambda_handler cfg e agentO intentO tts).sentAudio =
        some (f, u)) ∨
      (WaProcess.lambda_handler cfg e agentO intentO tts).sentText =
        some (f, WaProcess.APOLOGY)) := by
  have hfe : f.isEmpty = false := by
    cases hfi : f.isEmpty
    · rfl
    · exact absurd ((String.isEmpty_iff f).mp hfi) hf
  have hreply : WaProcess.pyOrS (WaProcess.agentReply agentO)
      WaProcess.APOLOGY = WaProcess.APOLOGY := by
    rw [hfail]; rfl
  have hsent : pyStrip WaProcess.APOLOGY ≠ WaProcess.SENTINEL := by decide
  have hslice : WaProcess._send_whatsapp_text f WaProcess.APOLOGY =
      (f, WaProcess.APOLOGY) := by
    unfold WaProcess._send_whatsapp_text
    rw [show pySlice WaProcess.APOLOGY 4096 = WaProcess.APOLOGY from rfl]
  simp only [WaProcess.lambda_handler, hna, hfrom, hfe, Bool.false_eq_true,
    if_false, Bool.not_false, Bool.not_true, if_true, hreply, Option.getD_some]
  split
  · cases tts with
    | some url => exact ⟨rfl, Or.inl ⟨url, rfl⟩⟩
    | none => exact ⟨rfl, Or.inr rfl⟩
  · exact ⟨rfl, Or.inr rfl⟩

/-- Claim C8, witness: a concrete text event with a raising agent call is
answered with the apology text. -/
theorem fallback_apology_confirmed_witness :
    (WaProcess.lambda_handler ⟨true, "media-bucket"⟩
      ⟨{ mtype := some "text", from_id := some "777",
         text := some "hola" }⟩
      (Except.error ()) (Except.error ()) Option.none).statusCode = 200 ∧
    ((∃ u, (WaProcess.lambda_handler ⟨true, "media-bucket"⟩
      ⟨{ mtype := some "text", from_id := some "777",
         text := some "hola" }⟩
      (Except.error ()) (Except.error ()) Option.none).sentAudio =
        some ("777", u)) ∨
      (WaProcess.lambda_handler ⟨true, "media-bucket"⟩
      ⟨{ mtype := some "text", from_id := some "777",
         text := some "hola" }⟩
      (Except.error ()) (Except.error ()) Option.none).sentText =
        some ("777", WaProcess.APOLOGY)) :=
  fallback_apology_confirmed ⟨true, "media-bucket"⟩
    ⟨{ mtype := some "text", from_id := some "777", text := some "hola" }⟩
    (Except.error ()) (Except.error ()) Option.none "777" rfl rfl
    (by decide) rfl

/-- Claim C6, counterexample: a generation reply that trims to the
sentinel is not always dropped — when the voice-intent classifier answers
true and TTS succeeds, the handler sends an outbound audio message even
though the trimmed reply equals the sentinel token. -/
theorem sentinel_counterexample :
    pyStrip (WaProcess.finalReply (Except.ok
      [WaProcess.AgentEvent.chunk (some (.strVal "✅"))])) =
        WaProcess.SENTINEL ∧
    (WaProcess.lambda_handler ⟨true, "media-bucket"⟩
      ⟨{ mtype := some "text", from_id := some "123",
         text := some "quiero audio" }⟩
      (Except.ok [WaProcess.AgentEvent.chunk (some (.strVal "✅"))])
      (Except.ok (.dict [("output", .dict [("message", .dict [("content",
        .list [.dict [("text", .str "\x7b\"voice\": true\x7d")]])])])]))
      (some "https://cdn.example/tts.mp3")).sentAudio =
        some ("123", "https://cdn.example/tts.mp3") ∧
    (WaProcess.lambda_handler ⟨true, "media-bucket"⟩
      ⟨{ mtype := some "text", from_id := some "123",
         text := some "quiero audio" }⟩
      (Except.ok [WaProcess.AgentEvent.chunk (some (.strVal "✅"))])
      (Except.ok (.dict [("output", .dict [("message", .dict [("content",
        .list [.dict [("text", .str "\x7b\"voice\": true\x7d")]])])])]))
      (some "https://cdn.example/tts.mp3")).exit =
        WaProcess.ExitPoint.audioSent :=
  ⟨rfl, rfl, rfl⟩

/-- Claim C6 (amended): once the handler reaches the post-voice stage
(voice intent false, or TTS yielded no audio), it drops the reply with no
outbound send exactly when the trimmed reply equals the sentinel; any
other reply — including one merely containing the sentinel — is delivered
as an ordinary text reply. -/
theorem sentinel_amended (cfg : WaProcess.Config) (e : WaProcess.InboundEvent)
    (agentO : Except Unit (List WaProcess.AgentEvent))
    (intentO : Except Unit PyVal) (tts : Option String) (f : String)
    (hna : WaProcess.isAudioMedia e = false)
    (hfrom : e.message.from_id = some f) (hf : f ≠ "")
    (hv : WaProcess.classify_voice_intent (WaProcess.effectiveUserText cfg e)
        intentO = false ∨ tts = Option.none) :
    (((WaProcess.lambda_handler cfg e agentO intentO tts).exit =
        WaProcess.ExitPoint.alreadyDelivered ∧
      (WaProcess.lambda_handler cfg e agentO intentO tts).sentText =
        Option.none ∧
      (WaProcess.lambda_handler cfg e agentO intentO tts).sentAudio =
        Option.none) ↔
      pyStrip (WaProcess.finalReply agentO) = WaProcess.SENTINEL) ∧
    (pyStrip (WaProcess.finalReply agentO) ≠ WaProcess.SENTINEL →
      (WaProcess.lambda_handler cfg e agentO intentO tts).sentText =
        some (f, pySlice (WaProcess.finalReply agentO) 4096)) := by
  have hfe : f.isEmpty = false := by
    cases hfi : f.isEmpty
    · rfl
    · exact absurd ((String.isEmpty_iff f).mp hfi) hf
  simp only [WaProcess.lambda_handler, WaProcess.finalReply, hna, hfrom, hfe,
    Bool.false_eq_true, if_false, Bool.not_false, Bool.not_true, if_true,
    Option.getD_some]
  rcases hv with hv | hv
  · rw [if_neg (by simp [hv])]
    by_cases hs : pyStrip (WaProcess.pyOrS (WaProcess.agentReply agentO)
        WaProcess.APOLOGY) = WaProcess.SENTINEL
    · rw [if_pos hs]
      exact ⟨by simp [hs], fun hns => absurd hs hns⟩
    · rw [if_neg hs]
      exact ⟨by simp [hs], fun _ => rfl⟩
  · subst hv
    by_cases hw : WaProcess.classify_voice_intent
        (WaProcess.effectiveUserText cfg e) intentO = true
    · rw [if_pos hw]
      simp only []
      by_cases hs : pyStrip (WaProcess.pyOrS (WaProcess.agentReply agentO)
          WaProcess.APOLOGY) = WaProcess.SENTINEL
      · rw [if_pos hs]
        exact ⟨by simp [hs], fun hns => absurd hs hns⟩
      · rw [if_neg hs]
        exact ⟨by simp [hs], fun _ => rfl⟩
    · rw [if_neg hw]
      by_cases hs : pyStrip (WaProcess.pyOrS (WaProcess.agentReply agentO)
          WaProcess.APOLOGY) = WaProcess.SENTINEL
      · rw [if_pos hs]
        exact ⟨by simp [hs], fun hns => absurd hs hns⟩
      · rw [if_neg hs]
        exact ⟨by simp [hs], fun _ => rfl⟩

/-- Claim C6 (amended), witness: with voice intent false, a sentinel reply
is dropped with no send, and a replacement reply would be sent as text. -/
theorem sentinel_amended_witness :
    (((WaProcess.lambda_handler ⟨true, "media-bucket"⟩
      ⟨{ mtype := some "text", from_id := some "42", text := some "hola" }⟩
      (Except.ok [WaProcess.AgentEvent.chunk (some (.strVal " ✅ "))])
      (Except.error ()) Option.none).exit =
        WaProcess.ExitPoint.alreadyDelivered ∧
      (WaProcess.lambda_handler ⟨true, "media-bucket"⟩
      ⟨{ mtype := some "text", from_id := some "42", text := some "hola" }⟩
      (Except.ok [WaProcess.AgentEvent.chunk (some (.strVal " ✅ "))])
      (Except.error ()) Option.none).sentText = Option.none ∧
      (WaProcess.lambda_handler ⟨true, "media-bucket"⟩
      ⟨{ mtype := some "text", from_id := some "42", text := some "hola" }⟩
      (Except.ok [WaProcess.AgentEvent.chunk (some (.strVal " ✅ "))])
      (Except.error ()) Option.none).sentAudio = Option.none) ↔
      pyStrip (WaProcess.finalReply (Except.ok
        [WaProcess.AgentEvent.chunk (some (.strVal " ✅ "))])) =
          WaProcess.SENTINEL) ∧
    (pyStrip (WaProcess.finalReply (Except.ok
        [WaProcess.AgentEvent.chunk (some (.strVal " ✅ "))])) ≠
          WaProcess.SENTINEL →
      (WaProcess.lambda_handler ⟨true, "media-bucket"⟩
      ⟨{ mtype := some "text", from_id := some "42", text := some "hola" }⟩
      (Except.ok [WaProcess.AgentEvent.chunk (some (.strVal " ✅ "))])
      (Except.error ()) Option.none).sentText =
        some ("42", pySlice (WaProcess.finalReply (Except.ok
          [WaProcess.AgentEvent.chunk (some (.strVal " ✅ "))])) 4096)) :=
  sentinel_amended ⟨true, "media-bucket"⟩
    ⟨{ mtype := some "text", from_id := some "42", text := some "hola" }⟩
    (Except.ok [WaProcess.AgentEvent.chunk (some (.strVal " ✅ "))])
    (Except.error ()) Option.none "42" rfl rfl (by decide) (Or.inl rfl)

/-- Claim C9, counterexample: an internal failure of the vision analysis
call inside the `wa-image-analyze` entry point is converted into an error
response with status 500, not into a non-error acknowledgement (200). -/
theorem boundary_ack_counterexample :
    WaImageAnalyze.lambda_handler
      (.dict [("body", .str "\x7b\"s3Uri\": \"s3://bucket/key.jpg\"\x7d")])
      (.error ()) = WaImageAnalyze.ImgResp.proxy 500 .unexpected ∧
    (500 : Nat) ≠ 200 :=
  ⟨rfl, by decide⟩

/-- Claim C9 (amended): the `wa-image-analyze` entry point does catch any
exception escaping its body at the outermost boundary, but converts it
into a 500 error response (plain 500 in proxy mode, httpStatusCode 500 in
the agent-tool envelope), not into a non-error acknowledgement. -/
theorem boundary_ack_amended (ev : PyVal) (core : Except Unit String)
    (u : Unit)
    (hbody : WaImageAnalyze.handlerBody ev (WaImageAnalyze.isAgentToolEvent ev)
        core = .error u) :
    WaImageAnalyze.lambda_handler ev core =
      (if WaImageAnalyze.isAgentToolEvent ev then
        WaImageAnalyze.ImgResp.agentR
          (WaImageAnalyze.exceptField ev "actionGroup" "ImageTools")
          (WaImageAnalyze.exceptField ev "apiPath" "/analyze-image")
          (WaImageAnalyze.exceptField ev "httpMethod" "POST") 500 .unexpected
      else WaImageAnalyze.ImgResp.proxy 500 .unexpected) := by
  simp only [WaImageAnalyze.lambda_handler]
  rw [hbody]

/-- Claim C9 (amended), witness: in agent-tool mode, a raising analysis
call produces the agent-tool 500 envelope. -/
theorem boundary_ack_amended_witness :
    WaImageAnalyze.lambda_handler
      (.dict [("actionGroup", .str "ImageTools"),
        ("requestBody", .str "\x7b\"s3Uri\": \"s3://bucket/key.jpg\"\x7d")])
      (.error ()) =
      (if WaImageAnalyze.isAgentToolEvent
          (.dict [("actionGroup", .str "ImageTools"),
            ("requestBody", .str "\x7b\"s3Uri\": \"s3://bucket/key.jpg\"\x7d")]) then
        WaImageAnalyze.ImgResp.agentR
          (WaImageAnalyze.exceptField
            (.dict [("actionGroup", .str "ImageTools"),
              ("requestBody", .str "\x7b\"s3Uri\": \"s3://bucket/key.jpg\"\x7d")])
            "actionGroup" "ImageTools")
          (WaImageAnalyze.exceptField
            (.dict [("actionGroup", .str "ImageTools"),
              ("requestBody", .str "\x7b\"s3Uri\": \"s3://bucket/key.jpg\"\x7d")])
            "apiPath" "/analyze-image")
          (WaImageAnalyze.exceptField
            (.dict [("actionGroup", .str "ImageTools"),
              ("requestBody", .str "\x7b\"s3Uri\": \"s3://bucket/key.jpg\"\x7d")])
            "httpMethod" "POST") 500 .unexpected
      else WaImageAnalyze.ImgResp.proxy 500 .unexpected) :=
  boundary_ack_amended
    (.dict [("actionGroup", .str "ImageTools"),
      ("requestBody", .str "\x7b\"s3Uri\": \"s3://bucket/key.jpg\"\x7d")])
    (.error ()) () rfl
